import Mathlib

/-!
Verification development for the self-play orchestration worker
(`src/chess_zero/worker/self_play.py`).

The worker runs complete games between two move selectors sharing one
borrowed inference channel, retries illegal actions, adjudicates runaway
games, interleaves the two sides' per-ply records, accumulates completed
games' records in a buffer that is flushed every `nb_game_in_file` games,
and rotates old data files.  The game-rules engine (`ChessEnv`) and the
move selectors (`ChessPlayer`) are external collaborators that are not part
of the source; they enter the embedding as a capability structure and as
selector functions, with the behaviour the spec assigns to them stated as
hypotheses of the theorems.
-/

/-- Modelled from the spec: the game-rules capability backing `ChessEnv`
(`chess_zero/env/chess_env.py` is an external collaborator, not under the
source tree).  `done`, `white_to_move` and `num_halfmoves` are observations
of the environment; `step` applies an action, returning `none` exactly when
the action is illegal (the `ValueError` path of `env.step`); `adjudicate`
forcibly terminates the game. -/
structure Rules (Env Action : Type) where
  done : Env → Bool
  white_to_move : Env → Bool
  step : Env → Action → Option Env
  num_halfmoves : Env → Nat
  adjudicate : Env → Env

/-- The data one run of `self_play_buffer` (lines 114-200) closes over: the
rules capability, the configured maximum game length
(`config.play.max_game_length`), the view construction of lines 136-151
(deepcopy of the environment followed by stripping the opponent's pieces),
and the two players' selectors (`white.action`, `black.action`).  A
selector may fail with a fault `ε` distinct from the illegal-action signal
(illegality is raised by `step`, not by the selector); such a fault
propagates, since the `try` of line 153 only guards `env.step`.  Selectors
receive the loop-iteration index so that stateful players are
representable. -/
structure Session (Env Action ε : Type) where
  rules : Rules Env Action
  max_game_length : Nat
  mk_view : Env → Env
  white_action : Nat → Env → Except ε Action
  black_action : Nat → Env → Except ε Action

/-- The local state of the per-game loop of `self_play_buffer`
(lines 129-166): the environment together with the counters `move`,
`failed_play`, `total_failed_plays` and the `moves_list` of applied
actions.  The fields `white_moves` and `black_moves` are Modelled from the
spec: `ChessPlayer` (`player_chess.py`) is not under the source tree; per
the spec each side's selector records one (position, distribution) pair per
ply played by that side, so we track the two record counts. -/
structure LoopState (Env Action : Type) where
  env : Env
  move : Nat
  failed_play : Nat
  total_failed_plays : Nat
  moves_list : List Action
  white_moves : Nat
  black_moves : Nat
  deriving DecidableEq

/-- Lines 140-151: build the view of the current position and query the
side to move for an action. -/
def sel_action {Env Action ε : Type} (S : Session Env Action ε) (k : Nat) (e : Env) :
    Except ε Action :=
  if S.rules.white_to_move e then S.white_action k (S.mk_view e)
  else S.black_action k (S.mk_view e)

/-- One iteration of the `while not env.done` loop of `self_play_buffer`
(lines 134-166).  On a successful `env.step` the action is appended to
`moves_list`, `failed_play` resets to 0, `move` increments, and the game is
adjudicated when `env.num_halfmoves` has reached
`config.play.max_game_length`; on the illegal-action `ValueError`,
`failed_play` and `total_failed_plays` increment and the game is
adjudicated when `failed_play` hits 50.  A selector fault propagates as
`Except.error`. -/
def game_body {Env Action ε : Type} (S : Session Env Action ε) (k : Nat)
    (s : LoopState Env Action) : Except ε (LoopState Env Action) :=
  match sel_action S k s.env with
  | .error e => .error e
  | .ok action =>
    match S.rules.step s.env action with
    | some env1 =>
      .ok { env := if S.max_game_length ≤ S.rules.num_halfmoves env1 then
                     S.rules.adjudicate env1
                   else env1
            move := s.move + 1
            failed_play := 0
            total_failed_plays := s.total_failed_plays
            moves_list := s.moves_list ++ [action]
            white_moves := if S.rules.white_to_move s.env then s.white_moves + 1
                           else s.white_moves
            black_moves := if S.rules.white_to_move s.env then s.black_moves
                           else s.black_moves + 1 }
    | none =>
      .ok { env := if s.failed_play + 1 == 50 then S.rules.adjudicate s.env else s.env
            move := s.move
            failed_play := s.failed_play + 1
            total_failed_plays := s.total_failed_plays + 1
            moves_list := s.moves_list
            white_moves := s.white_moves
            black_moves := s.black_moves }

/-- The `while not env.done` loop, run with explicit fuel: `.ok none` means
the fuel ran out with the game still in progress, `.ok (some s)` a
completed game, `.error e` a propagated selector fault. -/
def game_loop {Env Action ε : Type} (S : Session Env Action ε) :
    Nat → Nat → LoopState Env Action → Except ε (Option (LoopState Env Action))
  | 0, _, _ => .ok none
  | fuel + 1, k, s =>
    if S.rules.done s.env then .ok (some s)
    else
      match game_body S k s with
      | .error e => .error e
      | .ok s1 => game_loop S fuel (k + 1) s1

/-- The loop state right after `env = ChessEnv().reset()` (lines 124-133). -/
def init_state {Env Action : Type} (env0 : Env) : LoopState Env Action :=
  { env := env0, move := 0, failed_play := 0, total_failed_plays := 0,
    moves_list := [], white_moves := 0, black_moves := 0 }

/-- The adjudication flag written to `result.csv` (line 171): the run is
reported as `Adjudicated` exactly when `failed_play == 50` at loop exit. -/
def adjudicated_flag {Env Action : Type} (s : LoopState Env Action) : Bool :=
  s.failed_play == 50

/-- `self_play_buffer` at the granularity of the channel pool
(lines 114-200): `cur.pop()` borrows the last pipe of the shared list, the
game loop runs, and `cur.append(pipes)` returns the pipe on line 199.  The
second component is the pool as it stands when the function exits; on a
propagated selector fault the function exits by exception before line 199,
so the pool is left without the borrowed pipe.  `none` stands for a call
that never returns normally (empty pool on `pop`, or fuel exhausted with
the game still in progress). -/
def self_play_buffer {Env Action ε P : Type} (S : Session Env Action ε) (env0 : Env)
    (fuel : Nat) (cur : List P) :
    Option (Except ε (LoopState Env Action) × List P) :=
  match cur.getLast? with
  | none => none
  | some pipes =>
    match game_loop S fuel 0 (init_state env0) with
    | .error e => some (.error e, cur.dropLast)
    | .ok none => none
    | .ok (some s) => some (.ok s, cur.dropLast ++ [pipes])

/-- The Orchestrator state inside `SelfPlayWorker.start` (lines 54-75): the
in-memory buffer, the completed-game counter `game_idx`, and the batches
handed to `flush_buffer` so far (oldest first). -/
structure OrchState (Rcd : Type) where
  buffer : List Rcd
  game_idx : Nat
  flushes : List (List Rcd)
  deriving DecidableEq

/-- One iteration of the orchestrator loop (lines 62-75): increment
`game_idx`, append the completed game's records to the buffer, and when
`game_idx % nb_game_in_file == 0` hand the buffer to `flush_buffer`, which
records the batch and rebinds the buffer to a fresh empty list
(lines 91-101). -/
def process_game {Rcd : Type} (F : Nat) (s : OrchState Rcd) (data : List Rcd) :
    OrchState Rcd :=
  let idx := s.game_idx + 1
  let buf := s.buffer ++ data
  if idx % F == 0 then { buffer := [], game_idx := idx, flushes := s.flushes ++ [buf] }
  else { buffer := buf, game_idx := idx, flushes := s.flushes }

/-- The orchestrator loop applied to a finite prefix of the stream of
completed games' record lists, starting from the initial state of
`start`. -/
def run_orch {Rcd : Type} (F : Nat) (games : List (List Rcd)) : OrchState Rcd :=
  games.foldl (process_game F) { buffer := [], game_idx := 0, flushes := [] }

/-- The `while True` loop of `SelfPlayWorker.start` consuming
`futures.popleft().result()` (lines 62-75): each result is either a
completed game's record list or a fault raised inside the worker, which
`result()` re-raises in the orchestrator.  There is no handler, so a fault
terminates the loop and propagates out of `start`; the trailing
`if len(data) > 0: self.flush_buffer()` (lines 77-78) is only reachable if
the `while True` exits normally, which it never does, so on the fault path
the state at fault time is carried out unflushed. -/
def orch_loop {Rcd ε : Type} (F : Nat) :
    List (Except ε (List Rcd)) → OrchState Rcd →
    Except (ε × OrchState Rcd) (OrchState Rcd)
  | [], s => .ok s
  | .error e :: _, s => .error (e, s)
  | .ok d :: rs, s => orch_loop F rs (process_game F s d)

/-- `SelfPlayWorker.remove_play_data` (lines 103-111): given the sorted
listing of existing data files, return early when
`len(files) < max_file_num`, otherwise delete `files[i]` for
`i in range(len(files) - max_file_num)`.  The value is the list of deleted
files, in deletion order. -/
def remove_play_data {α : Type} [Inhabited α] (files : List α) (max_file_num : Nat) :
    List α :=
  if files.length < max_file_num then []
  else (List.range (files.length - max_file_num)).map (fun i => files.getD i default)

/-- The combination loop of lines 193-197:
`for i in range(len(white.moves)): data.append(white.moves[i]);
if i < len(black.moves): data.append(black.moves[i])` - white's i-th record,
then black's i-th when it exists; black's records beyond white's length are
never visited. -/
def self_play_data {Rcd : Type} : List Rcd → List Rcd → List Rcd
  | [], _ => []
  | wm :: ws, [] => wm :: self_play_data ws []
  | wm :: ws, bm :: bs => wm :: bm :: self_play_data ws bs

/-- A board position as the square/piece association returned by
`board.piece_map()`; piece symbols follow `str(piece)`: lowercase for
black, uppercase for white. -/
abbrev Board := List (Nat × Char)

/-- The `set("prnbqk")` of line 137. -/
def black_pieces : List Char := ['p', 'r', 'n', 'b', 'q', 'k']

/-- The `set("PRNBQK")` of line 138. -/
def white_pieces : List Char := ['P', 'R', 'N', 'B', 'Q', 'K']

/-- `board.remove_piece_at(i)`: clear square `i`. -/
def remove_piece_at (b : Board) (i : Nat) : Board :=
  b.filter (fun e => e.1 != i)

/-- The stripping loop of lines 141-144 (resp. 147-150): iterate over the
snapshot `x = temp.board.piece_map()` and remove from `temp.board` every
square holding an opponent piece. -/
def strip_loop (oppo : List Char) : Board → Board → Board
  | [], t => t
  | u :: xs, t =>
    strip_loop oppo xs (if oppo.contains u.2 then remove_piece_at t u.1 else t)

/-- Lines 136-151: `temp = deepcopy(env)` then strip the side not to move
from `temp.board`.  The first component is the board of the view handed to
the selector; the second is the authoritative board, untouched because the
stripping operates on the deep copy. -/
def build_view (white_to_move : Bool) (board : Board) : Board × Board :=
  let oppo := if white_to_move then black_pieces else white_pieces
  (strip_loop oppo board board, board)

/-- A minimal concrete game-rules instance used to exercise the embedding:
`halfmoves` counts plies, action `0` is the only legal action, and
`adjudicate` marks the environment; the game ends naturally once
`natural_end` halfmoves were played. -/
structure TEnv where
  halfmoves : Nat
  adjudicated : Bool
  deriving DecidableEq

def toy_rules (natural_end : Nat) : Rules TEnv Nat where
  done e := e.adjudicated || decide (natural_end ≤ e.halfmoves)
  white_to_move e := e.halfmoves % 2 == 0
  step e a := if a == 0 then some ⟨e.halfmoves + 1, e.adjudicated⟩ else none
  num_halfmoves e := e.halfmoves
  adjudicate e := ⟨e.halfmoves, true⟩

def toy_session (natural_end maxlen : Nat) (w b : Nat → TEnv → Except Nat Nat) :
    Session TEnv Nat Nat :=
  { rules := toy_rules natural_end, max_game_length := maxlen, mk_view := id,
    white_action := w, black_action := b }

def legal_sel : Nat → TEnv → Except Nat Nat := fun _ _ => .ok 0

def illegal_sel : Nat → TEnv → Except Nat Nat := fun _ _ => .ok 1

def fault_sel : Nat → TEnv → Except Nat Nat := fun _ _ => .error 7

def tenv0 : TEnv := ⟨0, false⟩

/-- Two-ply natural game: ends by the rules engine after 1 halfmove. -/
def legal_session : Session TEnv Nat Nat := toy_session 1 100 legal_sel legal_sel

/-- Both selectors fault immediately. -/
def fault_session : Session TEnv Nat Nat := toy_session 100 100 fault_sel fault_sel

/-- Both selectors only ever produce the illegal action. -/
def illegal_session : Session TEnv Nat Nat := toy_session 100 100 illegal_sel illegal_sel

/-- Legal play, but `max_game_length = 1` forces adjudication on the first
successful move. -/
def maxlen_session : Session TEnv Nat Nat := toy_session 100 1 legal_sel legal_sel

/-! ### Basic unfolding lemmas for the game loop -/

theorem game_loop_done {Env Action ε : Type} (S : Session Env Action ε) (fuel k : Nat)
    (s : LoopState Env Action) (hd : S.rules.done s.env = true) :
    game_loop S (fuel + 1) k s = .ok (some s) := by
  simp [game_loop, hd]

theorem game_loop_step {Env Action ε : Type} (S : Session Env Action ε) (fuel k : Nat)
    (s s1 : LoopState Env Action) (hd : S.rules.done s.env = false)
    (hb : game_body S k s = .ok s1) :
    game_loop S (fuel + 1) k s = game_loop S fuel (k + 1) s1 := by
  simp [game_loop, hd, hb]

theorem game_loop_fault {Env Action ε : Type} (S : Session Env Action ε) (fuel k : Nat)
    (s : LoopState Env Action) (e : ε) (hd : S.rules.done s.env = false)
    (hb : game_body S k s = .error e) :
    game_loop S (fuel + 1) k s = .error e := by
  simp [game_loop, hd, hb]

/-- The success branch of the loop body (lines 154-159), as an equation. -/
theorem game_body_legal {Env Action ε : Type} (S : Session Env Action ε) (k : Nat)
    (s : LoopState Env Action) (a : Action) (env1 : Env)
    (ha : sel_action S k s.env = .ok a) (hst : S.rules.step s.env a = some env1) :
    game_body S k s = .ok
      { env := if S.max_game_length ≤ S.rules.num_halfmoves env1 then
                 S.rules.adjudicate env1
               else env1
        move := s.move + 1
        failed_play := 0
        total_failed_plays := s.total_failed_plays
        moves_list := s.moves_list ++ [a]
        white_moves := if S.rules.white_to_move s.env then s.white_moves + 1
                       else s.white_moves
        black_moves := if S.rules.white_to_move s.env then s.black_moves
                       else s.black_moves + 1 } := by
  simp only [game_body, ha, hst]

/-- The illegal-action branch of the loop body (lines 160-166), as an
equation. -/
theorem game_body_illegal {Env Action ε : Type} (S : Session Env Action ε) (k : Nat)
    (s : LoopState Env Action) (a : Action)
    (ha : sel_action S k s.env = .ok a) (hst : S.rules.step s.env a = none) :
    game_body S k s = .ok
      { env := if s.failed_play + 1 == 50 then S.rules.adjudicate s.env else s.env
        move := s.move
        failed_play := s.failed_play + 1
        total_failed_plays := s.total_failed_plays + 1
        moves_list := s.moves_list
        white_moves := s.white_moves
        black_moves := s.black_moves } := by
  simp only [game_body, ha, hst]

/-! ### C1 - channel borrow/release discipline of `self_play_buffer` -/

/-- The final loop state of the one-ply natural game played by
`legal_session` from the start position. -/
def legal_final : LoopState TEnv Nat :=
  { env := ⟨1, false⟩, move := 1, failed_play := 0, total_failed_plays := 0,
    moves_list := [0], white_moves := 1, black_moves := 0 }

/-- C1 counterexample: with a selector that faults with an error other than
the illegal-action signal, `self_play_buffer` exits by exception before
`cur.append(pipes)` (the call of `white.action` on line 145 is outside the
`try` of line 153, and there is no `finally`), so the borrowed channel is
not returned: starting from the pool `[0]`, the pool observed when the call
exits no longer contains channel `0`.  This refutes the claim that the
channel is returned on every termination path. -/
theorem C1_counterexample :
    (self_play_buffer fault_session tenv0 5 [0]).map (fun r => r.2.contains 0) =
      some false := rfl

/-- C1 (amended): the borrowed channel (the last element of the shared
pool, removed by `cur.pop()`) is returned to the pool exactly once on every
path on which the game loop itself finishes - natural game end and forced
adjudication alike - leaving the pool equal to what it was at borrow time;
but on a move-selector fault other than the illegal-action signal the
exception propagates before `cur.append(pipes)`, and the pool is left
without the borrowed channel (it is leaked, though never appended twice). -/
theorem C1_channel_release_amended {Env Action ε P : Type} (S : Session Env Action ε)
    (env0 : Env) (fuel : Nat) (cur : List P) (h : cur ≠ []) :
    (∀ s : LoopState Env Action, game_loop S fuel 0 (init_state env0) = .ok (some s) →
      self_play_buffer S env0 fuel cur = some (.ok s, cur)) ∧
    (∀ e : ε, game_loop S fuel 0 (init_state env0) = .error e →
      self_play_buffer S env0 fuel cur =
        some (.error e, cur.dropLast)) := by
  constructor
  · intro s hs
    unfold self_play_buffer
    rw [List.getLast?_eq_getLast_of_ne_nil h, hs]
    show some (Except.ok s, cur.dropLast ++ [cur.getLast h]) = some (Except.ok s, cur)
    rw [List.dropLast_append_getLast h]
  · intro e he
    unfold self_play_buffer
    rw [List.getLast?_eq_getLast_of_ne_nil h, he]

/-- Witness for C1: on the concrete one-ply natural game the channel pool
`[7, 9]` is returned intact - channel `9` was borrowed and released exactly
once. -/
theorem C1_channel_release_witness :
    self_play_buffer legal_session tenv0 3 [7, 9] = some (.ok legal_final, [7, 9]) :=
  (C1_channel_release_amended legal_session tenv0 3 [7, 9] (by decide)).1
    legal_final rfl

/-! ### C2 - counters and the always-illegal scenario -/

/-- The loop state after `i` consecutive illegal actions from the start of
the game (no successful ply yet). -/
def fail_state {Env Action : Type} (env0 : Env) (i : Nat) : LoopState Env Action :=
  { env := env0, move := 0, failed_play := i, total_failed_plays := i,
    moves_list := [], white_moves := 0, black_moves := 0 }

/-- The loop state after the 50th consecutive illegal action from the start
of the game: the environment adjudicated, both counters at 50, no
records. -/
def adj_fail_state {Env Action ε : Type} (S : Session Env Action ε) (env0 : Env) :
    LoopState Env Action :=
  { env := S.rules.adjudicate env0, move := 0, failed_play := 50,
    total_failed_plays := 50, moves_list := [], white_moves := 0, black_moves := 0 }

/-- After `j + 1` further illegal actions from `fail_state env0 (49 - j)`
the loop reaches the adjudicated state and exits (with any spare fuel). -/
theorem game_loop_fail_run {Env Action ε : Type} (S : Session Env Action ε) (env0 : Env)
    (Hill : ∀ k : Nat, ∃ a : Action, sel_action S k env0 = .ok a ∧
      S.rules.step env0 a = none)
    (Hdone : S.rules.done env0 = false)
    (Hadj : S.rules.done (S.rules.adjudicate env0) = true) :
    ∀ j, j ≤ 49 → ∀ m k, game_loop S (m + j + 2) k (fail_state env0 (49 - j)) =
      .ok (some (adj_fail_state S env0)) := by
  intro j
  induction j with
  | zero =>
    intro _ m k
    obtain ⟨a, ha, hst⟩ := Hill k
    have hb := game_body_illegal S k (fail_state env0 (49 - 0)) a ha hst
    have hb' : game_body S k (fail_state env0 (49 - 0)) = .ok (adj_fail_state S env0) := by
      rw [hb]
      simp [fail_state, adj_fail_state]
    have hd : S.rules.done ((fail_state env0 (49 - 0) : LoopState Env Action)).env = false := Hdone
    have hf : m + 0 + 2 = (m + 1) + 1 := by omega
    rw [hf, game_loop_step S (m + 1) k _ _ hd hb',
      game_loop_done S m (k + 1) (adj_fail_state S env0) Hadj]
  | succ n ih =>
    intro hj m k
    obtain ⟨a, ha, hst⟩ := Hill k
    have hb := game_body_illegal S k (fail_state env0 (49 - (n + 1))) a ha hst
    have h1 : 49 - (n + 1) + 1 = 49 - n := by omega
    have h2 : ¬((49 - n == 50) = true) := by
      simp only [beq_iff_eq]
      omega
    have hb' : game_body S k (fail_state env0 (49 - (n + 1))) =
        .ok (fail_state env0 (49 - n)) := by
      rw [hb]
      simp only [fail_state, h1, if_neg h2]
    have hd : S.rules.done ((fail_state env0 (49 - (n + 1)) : LoopState Env Action)).env = false := Hdone
    have hf : m + (n + 1) + 2 = (m + n + 2) + 1 := by omega
    rw [hf, game_loop_step S (m + n + 2) k _ _ hd hb']
    exact ih (by omega) m (k + 1)

/-- With fuel for only `j + 1` iterations, the always-illegal run starting
from `fail_state env0 (49 - j)` is still in progress: the loop does not
exit before the 50th consecutive failure. -/
theorem game_loop_fail_not_yet {Env Action ε : Type} (S : Session Env Action ε) (env0 : Env)
    (Hill : ∀ k : Nat, ∃ a : Action, sel_action S k env0 = .ok a ∧
      S.rules.step env0 a = none)
    (Hdone : S.rules.done env0 = false) :
    ∀ j, j ≤ 49 → ∀ k, game_loop S (j + 1) k (fail_state env0 (49 - j)) = .ok none := by
  intro j
  induction j with
  | zero =>
    intro _ k
    obtain ⟨a, ha, hst⟩ := Hill k
    have hb := game_body_illegal S k (fail_state env0 (49 - 0)) a ha hst
    have hb' : game_body S k (fail_state env0 (49 - 0)) = .ok (adj_fail_state S env0) := by
      rw [hb]
      simp [fail_state, adj_fail_state]
    have hd : S.rules.done ((fail_state env0 (49 - 0) : LoopState Env Action)).env = false := Hdone
    rw [game_loop_step S 0 k _ _ hd hb']
    rfl
  | succ n ih =>
    intro hj k
    obtain ⟨a, ha, hst⟩ := Hill k
    have hb := game_body_illegal S k (fail_state env0 (49 - (n + 1))) a ha hst
    have h1 : 49 - (n + 1) + 1 = 49 - n := by omega
    have h2 : ¬((49 - n == 50) = true) := by
      simp only [beq_iff_eq]
      omega
    have hb' : game_body S k (fail_state env0 (49 - (n + 1))) =
        .ok (fail_state env0 (49 - n)) := by
      rw [hb]
      simp only [fail_state, h1, if_neg h2]
    have hd : S.rules.done ((fail_state env0 (49 - (n + 1)) : LoopState Env Action)).env = false := Hdone
    rw [game_loop_step S (n + 1) k _ _ hd hb']
    exact ih (by omega) (k + 1)

/-- C2: in the per-game loop, (i) a successful application of an action
resets `failed_play` to 0, increments the ply count `move`, and leaves the
game done whenever `env.num_halfmoves` has reached
`config.play.max_game_length` (adjudication is forced); (ii) an
illegal-action failure increments both `failed_play` and
`total_failed_plays`, does not advance the ply, adds no record and - below
the threshold - leaves the environment untouched, so the same side retries;
(iii) with a selector that only ever produces illegal actions, the loop is
still in progress after 49 failures but terminates after exactly 50
consecutive failures in the adjudicated state `adj_fail_state`, whose
counters are both 50 and which carries zero records. -/
theorem C2_loop_counters {Env Action ε : Type} (S : Session Env Action ε)
    (Hadj : ∀ e : Env, S.rules.done (S.rules.adjudicate e) = true) :
    (∀ (k : Nat) (s : LoopState Env Action) (a : Action) (env1 : Env),
      sel_action S k s.env = .ok a → S.rules.step s.env a = some env1 →
      ∃ s1, game_body S k s = .ok s1 ∧ s1.failed_play = 0 ∧ s1.move = s.move + 1 ∧
        s1.total_failed_plays = s.total_failed_plays ∧
        (S.max_game_length ≤ S.rules.num_halfmoves env1 → S.rules.done s1.env = true) ∧
        (S.rules.num_halfmoves env1 < S.max_game_length → s1.env = env1)) ∧
    (∀ (k : Nat) (s : LoopState Env Action) (a : Action),
      sel_action S k s.env = .ok a → S.rules.step s.env a = none →
      ∃ s1, game_body S k s = .ok s1 ∧ s1.failed_play = s.failed_play + 1 ∧
        s1.total_failed_plays = s.total_failed_plays + 1 ∧ s1.move = s.move ∧
        s1.moves_list = s.moves_list ∧ s1.white_moves = s.white_moves ∧
        s1.black_moves = s.black_moves ∧
        (s.failed_play + 1 ≠ 50 → s1.env = s.env) ∧
        (s.failed_play + 1 = 50 → s1.env = S.rules.adjudicate s.env ∧
          S.rules.done s1.env = true)) ∧
    (∀ env0 : Env,
      (∀ k : Nat, ∃ a : Action, sel_action S k env0 = .ok a ∧
        S.rules.step env0 a = none) →
      S.rules.done env0 = false →
      game_loop S 50 0 (init_state env0) = .ok none ∧
      ∀ m, game_loop S (51 + m) 0 (init_state env0) =
        .ok (some (adj_fail_state S env0))) := by
  refine ⟨?_, ?_, ?_⟩
  · intro k s a env1 ha hst
    refine ⟨_, game_body_legal S k s a env1 ha hst, rfl, rfl, rfl, ?_, ?_⟩
    · intro hlen
      show S.rules.done (if S.max_game_length ≤ S.rules.num_halfmoves env1 then
        S.rules.adjudicate env1 else env1) = true
      rw [if_pos hlen]
      exact Hadj env1
    · intro hlt
      show (if S.max_game_length ≤ S.rules.num_halfmoves env1 then
        S.rules.adjudicate env1 else env1) = env1
      rw [if_neg (by omega)]
  · intro k s a ha hst
    refine ⟨_, game_body_illegal S k s a ha hst, rfl, rfl, rfl, rfl, rfl, rfl, ?_, ?_⟩
    · intro hne
      show (if s.failed_play + 1 == 50 then S.rules.adjudicate s.env else s.env) = s.env
      rw [if_neg (by simp only [beq_iff_eq]; omega)]
    · intro heq
      have hpos : (s.failed_play + 1 == 50) = true := by simp only [beq_iff_eq]; omega
      constructor
      · show (if s.failed_play + 1 == 50 then S.rules.adjudicate s.env else s.env) =
          S.rules.adjudicate s.env
        rw [if_pos hpos]
      · show S.rules.done (if s.failed_play + 1 == 50 then S.rules.adjudicate s.env
          else s.env) = true
        rw [if_pos hpos]
        exact Hadj s.env
  · intro env0 Hill Hdone
    constructor
    · have := game_loop_fail_not_yet S env0 Hill Hdone 49 (by omega) 0
      have hz : (49 : Nat) - 49 = 0 := by omega
      rw [hz] at this
      exact this
    · intro m
      have := game_loop_fail_run S env0 Hill Hdone (Hadj env0) 49 (by omega) m 0
      have hz : (49 : Nat) - 49 = 0 := by omega
      rw [hz] at this
      have hf : m + 49 + 2 = 51 + m := by omega
      rw [hf] at this
      exact this

/-- Witness for C2: on the concrete always-illegal session the loop
terminates with both counters at 50, an adjudicated environment and zero
records. -/
theorem C2_loop_counters_witness :
    game_loop illegal_session 51 0 (init_state tenv0) =
      .ok (some (adj_fail_state illegal_session tenv0)) :=
  ((C2_loop_counters illegal_session (fun _ => rfl)).2.2 tenv0
    (fun _ => ⟨1, rfl, rfl⟩) rfl).2 0

/-! ### C10 - termination of the per-game loop -/

/-- Termination measure for the loop: remaining halfmoves to the length
limit, weighted past the 51 iterations a full failure streak can take,
plus the remaining failure budget. -/
def meas {Env Action ε : Type} (S : Session Env Action ε) (s : LoopState Env Action) :
    Nat :=
  (S.max_game_length - S.rules.num_halfmoves s.env) * 51 + (50 - s.failed_play)

/-- Any loop iteration that does not end the game strictly decreases the
measure and keeps the failure counter below the threshold. -/
theorem game_body_progress {Env Action ε : Type} (S : Session Env Action ε)
    (Hadj : ∀ e : Env, S.rules.done (S.rules.adjudicate e) = true)
    (Hstep : ∀ (e : Env) (a : Action) (e1 : Env), S.rules.step e a = some e1 →
      S.rules.num_halfmoves e1 = S.rules.num_halfmoves e + 1)
    (k : Nat) (s s1 : LoopState Env Action) (hfp : s.failed_play ≤ 49)
    (hb : game_body S k s = .ok s1) (hd1 : S.rules.done s1.env = false) :
    s1.failed_play ≤ 49 ∧ meas S s1 < meas S s := by
  cases hsel : sel_action S k s.env with
  | error e =>
    have hbe : game_body S k s = .error e := by
      simp only [game_body, hsel]
    rw [hbe] at hb
    exact absurd hb (by simp)
  | ok a =>
    cases hstep : S.rules.step s.env a with
    | some env1 =>
      rw [game_body_legal S k s a env1 hsel hstep] at hb
      simp only [Except.ok.injEq] at hb
      subst hb
      by_cases hlen : S.max_game_length ≤ S.rules.num_halfmoves env1
      · simp only [if_pos hlen] at hd1
        rw [Hadj env1] at hd1
        exact absurd hd1 (by simp)
      · have hnum := Hstep s.env a env1 hstep
        refine ⟨?_, ?_⟩
        · show (0 : Nat) ≤ 49
          omega
        unfold meas
        simp only [if_neg hlen]
        rw [hnum]
        omega
    | none =>
      rw [game_body_illegal S k s a hsel hstep] at hb
      simp only [Except.ok.injEq] at hb
      subst hb
      by_cases h50 : s.failed_play + 1 = 50
      · have hpos : (s.failed_play + 1 == 50) = true := by
          simp only [beq_iff_eq]; omega
        simp only [if_pos hpos] at hd1
        rw [Hadj s.env] at hd1
        exact absurd hd1 (by simp)
      · have hneg : ¬((s.failed_play + 1 == 50) = true) := by
          simp only [beq_iff_eq]; omega
        refine ⟨?_, ?_⟩
        · show s.failed_play + 1 ≤ 49
          omega
        unfold meas
        simp only [if_neg hneg]
        omega

/-- With fuel exceeding the measure, a game not yet done and below the
failure threshold does not exhaust the fuel. -/
theorem game_loop_term_aux {Env Action ε : Type} (S : Session Env Action ε)
    (Hadj : ∀ e : Env, S.rules.done (S.rules.adjudicate e) = true)
    (Hstep : ∀ (e : Env) (a : Action) (e1 : Env), S.rules.step e a = some e1 →
      S.rules.num_halfmoves e1 = S.rules.num_halfmoves e + 1) :
    ∀ (fuel k : Nat) (s : LoopState Env Action), S.rules.done s.env = false →
      s.failed_play ≤ 49 → meas S s < fuel → game_loop S fuel k s ≠ .ok none := by
  intro fuel
  induction fuel with
  | zero =>
    intro k s _ _ hm
    exact absurd hm (Nat.not_lt_zero _)
  | succ n ih =>
    intro k s hd hfp hm
    cases hb : game_body S k s with
    | error e =>
      rw [game_loop_fault S n k s e hd hb]
      simp
    | ok s1 =>
      rw [game_loop_step S n k s s1 hd hb]
      cases hd1 : S.rules.done s1.env with
      | true =>
        have hmeas1 : 1 ≤ meas S s := by unfold meas; omega
        obtain ⟨n1, rfl⟩ : ∃ n1, n = n1 + 1 := ⟨n - 1, by omega⟩
        rw [game_loop_done S n1 (k + 1) s1 hd1]
        simp
      | false =>
        obtain ⟨hfp1, hlt⟩ := game_body_progress S Hadj Hstep k s s1 hfp hb hd1
        exact ih (k + 1) s1 hd1 hfp1 (by omega)

/-- C10: whatever mixture of legal and illegal actions the selectors
produce (including selector faults, which propagate and end the loop), the
per-game loop terminates: provided the game-rules capability behaves as
specified (adjudication marks the game done, a successful step advances the
halfmove count by one), the loop starting from a fresh game either finishes
or faults within `51 * max_game_length + 51` iterations - it never runs out
of that much fuel still in progress. -/
theorem C10_termination {Env Action ε : Type} (S : Session Env Action ε)
    (Hadj : ∀ e : Env, S.rules.done (S.rules.adjudicate e) = true)
    (Hstep : ∀ (e : Env) (a : Action) (e1 : Env), S.rules.step e a = some e1 →
      S.rules.num_halfmoves e1 = S.rules.num_halfmoves e + 1)
    (env0 : Env) (fuel : Nat) (hfuel : 51 * S.max_game_length + 51 ≤ fuel) :
    game_loop S fuel 0 (init_state env0) ≠ .ok none := by
  obtain ⟨n, rfl⟩ : ∃ n, fuel = n + 1 := ⟨fuel - 1, by omega⟩
  cases hd : S.rules.done ((init_state env0 : LoopState Env Action)).env with
  | true =>
    rw [game_loop_done S n 0 _ hd]
    simp
  | false =>
    have hsub := Nat.sub_le S.max_game_length (S.rules.num_halfmoves env0)
    apply game_loop_term_aux S Hadj Hstep (n + 1) 0 _ hd
    · show (0 : Nat) ≤ 49
      omega
    · show (S.max_game_length - S.rules.num_halfmoves env0) * 51 + (50 - 0) < n + 1
      omega

/-- A successful step of the toy rules advances the halfmove count by
one. -/
theorem toy_step_halfmoves (ne : Nat) : ∀ (e : TEnv) (a : Nat) (e1 : TEnv),
    (toy_rules ne).step e a = some e1 →
    (toy_rules ne).num_halfmoves e1 = (toy_rules ne).num_halfmoves e + 1 := by
  intro e a e1 h
  simp only [toy_rules] at h ⊢
  split at h
  · cases h
    rfl
  · cases h

/-- Witness for C10: the concrete always-illegal session terminates within
the stated bound. -/
theorem C10_termination_witness :
    game_loop illegal_session 5151 0 (init_state tenv0) ≠ .ok none :=
  C10_termination illegal_session (fun _ => rfl) (toy_step_halfmoves 100) tenv0 5151
    (by decide)

/-! ### C8 - the adjudication flag of `result.csv` -/

/-- C8 counterexample: in the concrete session where legal play hits
`max_game_length = 1`, the game is adjudicated by the length limit
(`env.adjudicate()` on line 159 ran, the final environment is marked
adjudicated), yet the reported flag `failed_play == 50` is `false` - the
result line claims a natural game end.  This refutes the claim that the
flag is set whenever the result was reached by adjudication. -/
theorem C8_counterexample :
    (game_loop maxlen_session 3 0 (init_state tenv0)).map
      (Option.map (fun s => (s.env.adjudicated, adjudicated_flag s))) =
      .ok (some (true, false)) := rfl

/-- C8 (amended): the flag written to `result.csv` is the test
`failed_play == 50` at loop exit, so it is set exactly when the final loop
iteration was the 50th consecutive illegal action - the failure-threshold
adjudication.  Any game whose final iteration applied a move successfully -
natural game end and max-ply adjudication alike - reports the flag unset,
since the success reset `failed_play` to 0. -/
theorem C8_flag_amended {Env Action ε : Type} (S : Session Env Action ε) (k : Nat)
    (s : LoopState Env Action) (a : Action) (ha : sel_action S k s.env = .ok a) :
    (∀ env1 : Env, S.rules.step s.env a = some env1 →
      ∃ s1, game_body S k s = .ok s1 ∧ adjudicated_flag s1 = false) ∧
    (S.rules.step s.env a = none →
      ∃ s1, game_body S k s = .ok s1 ∧
        (adjudicated_flag s1 = true ↔ s.failed_play = 49) ∧
        (s.failed_play = 49 → s1.env = S.rules.adjudicate s.env)) := by
  constructor
  · intro env1 hst
    refine ⟨_, game_body_legal S k s a env1 ha hst, ?_⟩
    show ((0 : Nat) == 50) = false
    rfl
  · intro hst
    refine ⟨_, game_body_illegal S k s a ha hst, ?_, ?_⟩
    · show ((s.failed_play + 1 == 50) = true ↔ s.failed_play = 49)
      simp only [beq_iff_eq]
      omega
    · intro h49
      have hpos : (s.failed_play + 1 == 50) = true := by
        simp only [beq_iff_eq]; omega
      show (if s.failed_play + 1 == 50 then S.rules.adjudicate s.env else s.env) =
        S.rules.adjudicate s.env
      rw [if_pos hpos]

/-- Witness for C8: after the successful first ply of the
`max_game_length = 1` session the flag is unset. -/
theorem C8_flag_witness :
    ∃ s1 : LoopState TEnv Nat, game_body maxlen_session 0 (init_state tenv0) = .ok s1 ∧
      adjudicated_flag s1 = false :=
  (C8_flag_amended maxlen_session 0 (init_state tenv0) 0 rfl).1 ⟨1, false⟩ rfl

/-! ### C3 - flush discipline of the orchestrator -/

/-- One orchestrator iteration preserves the total record sequence: records
flushed so far followed by the pending buffer. -/
theorem process_game_join {Rcd : Type} (F : Nat) (s : OrchState Rcd) (d : List Rcd) :
    (process_game F s d).flushes.flatten ++ (process_game F s d).buffer =
      s.flushes.flatten ++ (s.buffer ++ d) := by
  simp only [process_game]
  split
  · simp [List.flatten_append]
  · simp

/-- One orchestrator iteration preserves the invariant that the number of
flushes is the completed-game count divided by `nb_game_in_file`. -/
theorem process_game_flush_count {Rcd : Type} (F : Nat) (s : OrchState Rcd)
    (d : List Rcd) (h : s.flushes.length = s.game_idx / F) :
    (process_game F s d).flushes.length = (process_game F s d).game_idx / F := by
  simp only [process_game]
  split <;> rename_i hc
  · have hdvd : F ∣ s.game_idx + 1 :=
      Nat.dvd_of_mod_eq_zero (by simpa only [beq_iff_eq] using hc)
    show (s.flushes ++ [s.buffer ++ d]).length = (s.game_idx + 1) / F
    rw [List.length_append, h, Nat.succ_div, if_pos hdvd]
    rfl
  · have hmod : ¬(s.game_idx + 1) % F = 0 := by
      intro hz
      exact hc (by simpa only [beq_iff_eq] using hz)
    have hdvd : ¬F ∣ s.game_idx + 1 := fun hd => hmod (Nat.mod_eq_zero_of_dvd hd)
    show s.flushes.length = (s.game_idx + 1) / F
    rw [Nat.succ_div, if_neg hdvd, h]
    exact (Nat.add_zero _).symm

/-- One orchestrator iteration advances the completed-game counter by
one. -/
theorem process_game_idx {Rcd : Type} (F : Nat) (s : OrchState Rcd) (d : List Rcd) :
    (process_game F s d).game_idx = s.game_idx + 1 := by
  simp only [process_game]
  split <;> rfl

/-- Right after any iteration whose resulting game count is a multiple of
`nb_game_in_file`, the buffer is the fresh empty list installed by
`flush_buffer`. -/
theorem process_game_buffer_empty {Rcd : Type} (F : Nat) (s : OrchState Rcd)
    (d : List Rcd) (h : (process_game F s d).game_idx % F = 0) :
    (process_game F s d).buffer = [] := by
  simp only [process_game] at h ⊢
  split at h <;> rename_i hc
  · rw [if_pos hc]
  · exact absurd (by simpa only [beq_iff_eq] using h) hc

theorem run_fold_join {Rcd : Type} (F : Nat) :
    ∀ (gs : List (List Rcd)) (s : OrchState Rcd),
      (gs.foldl (process_game F) s).flushes.flatten ++ (gs.foldl (process_game F) s).buffer =
        s.flushes.flatten ++ s.buffer ++ gs.flatten := by
  intro gs
  induction gs with
  | nil => intro s; simp
  | cons g gs ih =>
    intro s
    simp only [List.foldl_cons, List.flatten_cons]
    rw [ih, process_game_join]
    simp [List.append_assoc]

theorem run_fold_flush_count {Rcd : Type} (F : Nat) :
    ∀ (gs : List (List Rcd)) (s : OrchState Rcd),
      s.flushes.length = s.game_idx / F →
      (gs.foldl (process_game F) s).flushes.length =
        (gs.foldl (process_game F) s).game_idx / F := by
  intro gs
  induction gs with
  | nil => intro s h; exact h
  | cons g gs ih =>
    intro s h
    exact ih (process_game F s g) (process_game_flush_count F s g h)

theorem run_fold_idx {Rcd : Type} (F : Nat) :
    ∀ (gs : List (List Rcd)) (s : OrchState Rcd),
      (gs.foldl (process_game F) s).game_idx = s.game_idx + gs.length := by
  intro gs
  induction gs with
  | nil => intro s; simp
  | cons g gs ih =>
    intro s
    simp only [List.foldl_cons, List.length_cons]
    rw [ih, process_game_idx]
    omega

/-- C3: the orchestrator loop of `SelfPlayWorker.start` flushes the buffer
when and only when the completed-game count reaches a multiple of
`nb_game_in_file`: over any run, (i) the flushed batches followed by the
pending buffer are exactly the concatenation of all completed games'
records, in order - no record flushed twice, none dropped; (ii) the number
of flushes is the completed-game count divided by `nb_game_in_file`;
(iii) the game counter tracks the number of completed games; (iv) when the
game count is a multiple of `nb_game_in_file` the buffer has just been
replaced by a fresh empty list; and (v) concretely, with
`nb_game_in_file = 3` and three completed games, exactly one flush occurs,
containing the three games' records in order, and the buffer is empty
immediately after. -/
theorem C3_flush_discipline {Rcd : Type} (F : Nat) (games : List (List Rcd)) :
    ((run_orch F games).flushes.flatten ++ (run_orch F games).buffer = games.flatten) ∧
    ((run_orch F games).flushes.length = games.length / F) ∧
    ((run_orch F games).game_idx = games.length) ∧
    (games.length % F = 0 → (run_orch F games).buffer = []) ∧
    (∀ a b c : List Rcd, run_orch 3 [a, b, c] =
      { buffer := [], game_idx := 3, flushes := [a ++ b ++ c] }) := by
  refine ⟨?_, ?_, ?_, ?_, ?_⟩
  · have := run_fold_join F games { buffer := [], game_idx := 0, flushes := [] }
    simpa [run_orch] using this
  · have := run_fold_flush_count F games { buffer := [], game_idx := 0, flushes := [] }
      (by simp)
    rw [run_orch, this, run_fold_idx]
    simp
  · rw [run_orch, run_fold_idx]
    simp
  · intro hmod
    rcases List.eq_nil_or_concat games with rfl | ⟨gs, g, rfl⟩
    · rfl
    · rw [run_orch, List.concat_eq_append, List.foldl_append]
      apply process_game_buffer_empty
      have hidx := run_fold_idx F (gs ++ [g]) { buffer := [], game_idx := 0, flushes := [] }
      rw [List.foldl_append] at hidx
      simp only [List.foldl_cons, List.foldl_nil] at hidx ⊢
      rw [hidx]
      simpa using hmod
  · intro a b c
    simp [run_orch, process_game]

/-! ### C4 - fault isolation in the orchestrator -/

/-- C4 counterexample: a game future that raised a fault other than the
illegal-action signal terminates the orchestrator loop at once
(`futures.popleft().result()` re-raises it and `start` has no handler): the
loop exits with the error, and the second - perfectly healthy - game's
records are never consumed.  This refutes the claim that the loop keeps
running and other in-flight games are unaffected. -/
theorem C4_counterexample :
    orch_loop 3 [Except.error 0, Except.ok [5]]
        ({ buffer := [], game_idx := 0, flushes := [] } : OrchState Nat) =
      .error (0, { buffer := [], game_idx := 0, flushes := [] }) := rfl

/-- C4 (amended): a move-selector fault other than the illegal-action
signal is re-raised by `futures.popleft().result()` inside the
orchestrator's `while True` loop, which has no handler: after consuming any
number of healthy games, the first faulted result terminates the loop with
the exception, leaving the state exactly as after the healthy prefix - the
failed game contributes no records to the buffer, and the remaining
in-flight games' results are never consumed. -/
theorem C4_fault_propagation_amended {Rcd ε : Type} (F : Nat) (pre : List (List Rcd))
    (e : ε) (rest : List (Except ε (List Rcd))) (s : OrchState Rcd) :
    orch_loop F (pre.map Except.ok ++ Except.error e :: rest) s =
      .error (e, pre.foldl (process_game F) s) := by
  induction pre generalizing s with
  | nil => rfl
  | cons g gs ih => exact ih (process_game F s g)

/-! ### C5 - flush on shutdown -/

/-- C5: the claim is right and the code wrong.  `SelfPlayWorker.start` ends
with `if len(data) > 0: self.flush_buffer()` (lines 77-78), showing the
intent to flush at shutdown, but the `while True` loop above it exits only
via an exception, which propagates past those lines (and even if reached
they test the last game's `data`, not the buffer).  Concretely: one healthy
game with one record, then a fatal fault - the orchestrator exits carrying
the non-empty buffer `[5]` with no flush having occurred. -/
theorem C5_shutdown_flush_bug :
    orch_loop 3 [Except.ok [5], Except.error 0]
        ({ buffer := [], game_idx := 0, flushes := [] } : OrchState Nat) =
      .error (0, { buffer := [5], game_idx := 1, flushes := [] }) := rfl

/-! ### C6 - interleaving of the two sides' records -/

/-- C6: the combined list built by lines 193-197 interleaves the two
sides' records ply by ply: white's `i`-th record sits at position
`i + min i (length of black's records)`, and whenever black also has an
`i`-th record it follows immediately after. -/
theorem C6_interleaving {Rcd : Type} (w b : List Rcd) (i : Nat) (h : i < w.length) :
    (self_play_data w b)[i + min i b.length]? = some w[i] ∧
    ∀ h2 : i < b.length, (self_play_data w b)[i + min i b.length + 1]? = some b[i] := by
  induction w generalizing b i with
  | nil => exact absurd h (Nat.not_lt_zero i)
  | cons wh wt ih =>
    cases b with
    | nil =>
      refine ⟨?_, fun h2 => absurd h2 (Nat.not_lt_zero i)⟩
      cases i with
      | zero => simp [self_play_data]
      | succ n =>
        have h' : n < wt.length := Nat.lt_of_succ_lt_succ h
        have H := (ih [] n h').1
        simp only [List.length_nil, Nat.min_zero, Nat.add_zero] at H ⊢
        show (wh :: self_play_data wt [])[n + 1]? = some (wh :: wt)[n + 1]
        rw [List.getElem?_cons_succ, List.getElem_cons_succ]
        exact H
    | cons bh bt =>
      cases i with
      | zero =>
        refine ⟨?_, fun _ => ?_⟩ <;> simp [self_play_data]
      | succ n =>
        have h' : n < wt.length := Nat.lt_of_succ_lt_succ h
        have H := ih bt n h'
        have hmin : min (n + 1) (bh :: bt).length = min n bt.length + 1 := by
          simp [List.length_cons, Nat.succ_min_succ]
        constructor
        · rw [hmin]
          have e1 : n + 1 + (min n bt.length + 1) = (n + min n bt.length + 1) + 1 := by
            omega
          rw [e1]
          show (wh :: bh :: self_play_data wt bt)[(n + min n bt.length + 1) + 1]? =
            some (wh :: wt)[n + 1]
          rw [List.getElem?_cons_succ, List.getElem?_cons_succ, List.getElem_cons_succ]
          exact H.1
        · intro h2
          have h2' : n < bt.length := Nat.lt_of_succ_lt_succ h2
          rw [hmin]
          have e1 : n + 1 + (min n bt.length + 1) + 1 =
              ((n + min n bt.length + 1) + 1) + 1 := by omega
          rw [e1]
          show (wh :: bh :: self_play_data wt bt)[((n + min n bt.length + 1) + 1) + 1]? =
            some (bh :: bt)[n + 1]
          rw [List.getElem?_cons_succ, List.getElem?_cons_succ, List.getElem_cons_succ]
          exact H.2 h2'

/-- Witness for C6: in the concrete combined list `[10, 30, 20]` built from
white's `[10, 20]` and black's `[30]`, white's record at index 1 sits at
position `1 + min 1 1 = 2`. -/
theorem C6_interleaving_witness :
    (self_play_data [10, 20] [30])[1 + min 1 ([30] : List Nat).length]? = some 20 :=
  (C6_interleaving [10, 20] [30] 1 (by decide)).1

/-! ### C7 - the retention sweep `remove_play_data` -/

/-- The deletion loop `for i in range(n): os.remove(files[i])` visits
exactly the first `n` files of the listing. -/
theorem range_map_getD {α : Type} [Inhabited α] (l : List α) :
    ∀ n, n ≤ l.length →
      (List.range n).map (fun i => l.getD i default) = l.take n := by
  intro n
  induction n with
  | zero => intro _; simp
  | succ m ih =>
    intro h
    have hm : m < l.length := by omega
    rw [List.range_succ, List.map_append, ih (by omega), List.take_succ]
    simp only [List.map_cons, List.map_nil, List.getD_eq_getD_get?, List.get?_eq_getElem?,
      List.getElem?_eq_getElem hm]
    rfl

/-- C7: given the sorted listing of data files, when the count is at least
the configured maximum the sweep deletes exactly the `count - max` oldest
files (the listing's prefix) and the remaining newest `max` files (the
listing's suffix) are untouched; when the count is at or below the maximum
it deletes nothing. -/
theorem C7_retention {α : Type} [Inhabited α] (files : List α) (maxn : Nat) :
    (maxn ≤ files.length →
      remove_play_data files maxn = files.take (files.length - maxn) ∧
      files.take (files.length - maxn) ++ files.drop (files.length - maxn) = files ∧
      (files.drop (files.length - maxn)).length = maxn) ∧
    (files.length ≤ maxn → remove_play_data files maxn = []) := by
  constructor
  · intro hge
    have hnotlt : ¬files.length < maxn := by omega
    refine ⟨?_, List.take_append_drop _ _, ?_⟩
    · unfold remove_play_data
      rw [if_neg hnotlt]
      exact range_map_getD files _ (by omega)
    · rw [List.length_drop]
      omega
  · intro hle
    by_cases hlt : files.length < maxn
    · unfold remove_play_data
      rw [if_pos hlt]
    · have h0 : files.length - maxn = 0 := by omega
      unfold remove_play_data
      rw [if_neg hlt, h0]
      rfl

/-- Witness for C7: from the three-file listing `[10, 20, 30]` with a
maximum of two retained files, exactly the oldest file is deleted. -/
theorem C7_retention_witness :
    remove_play_data [10, 20, 30] 2 = [10] :=
  ((C7_retention [10, 20, 30] 2).1 (by decide)).1

/-! ### C9 - the position view handed to the selector -/

theorem contains_iff_mem {α : Type} [BEq α] [LawfulBEq α] {l : List α} {a : α} :
    l.contains a = true ↔ a ∈ l := List.elem_iff

/-- The squares the stripping loop clears: the squares of the snapshot's
entries holding an opponent piece. -/
def removal_squares (oppo : List Char) (x : Board) : List Nat :=
  (x.filter (fun u => oppo.contains u.2)).map Prod.fst

/-- The stripping loop is a filter: iterating `remove_piece_at` over the
snapshot exactly removes the entries whose square holds an opponent piece
in the snapshot. -/
theorem strip_loop_eq_filter (oppo : List Char) :
    ∀ (x t : Board), strip_loop oppo x t =
      t.filter (fun e => !((removal_squares oppo x).contains e.1)) := by
  intro x
  induction x with
  | nil =>
    intro t
    simp [strip_loop, removal_squares, List.filter_true]
  | cons u xs ih =>
    intro t
    simp only [strip_loop]
    by_cases hc : oppo.contains u.2 = true
    · rw [if_pos hc, ih]
      unfold remove_piece_at
      rw [List.filter_filter]
      have hm : u.2 ∈ oppo := contains_iff_mem.mp hc
      have hr : removal_squares oppo (u :: xs) = u.1 :: removal_squares oppo xs := by
        simp [removal_squares, List.filter_cons, hm]
      rw [hr]
      apply List.filter_congr
      intro e _
      rw [List.contains_cons]
      simp [bne, Bool.not_or, Bool.and_comm]
    · rw [if_neg hc, ih]
      have hm : u.2 ∉ oppo := fun hmem => hc (contains_iff_mem.mpr hmem)
      have hr : removal_squares oppo (u :: xs) = removal_squares oppo xs := by
        simp [removal_squares, List.filter_cons, hm]
      rw [hr]

/-- On a board whose squares are pairwise distinct
(`piece_map` keys are unique), a square is cleared by the stripping loop
exactly when its piece is an opponent piece. -/
theorem removal_squares_contains (oppo : List Char) (b : Board)
    (hnd : (b.map Prod.fst).Nodup) (e : Nat × Char) (he : e ∈ b) :
    (removal_squares oppo b).contains e.1 = oppo.contains e.2 := by
  by_cases hop : oppo.contains e.2 = true
  · rw [hop]
    refine contains_iff_mem.mpr ?_
    exact List.mem_map_of_mem _ (List.mem_filter.mpr ⟨he, hop⟩)
  · have hop' : oppo.contains e.2 = false := by
      cases h : oppo.contains e.2
      · rfl
      · exact absurd h hop
    rw [hop']
    cases h : (removal_squares oppo b).contains e.1
    · rfl
    · exfalso
      obtain ⟨u, hu, hfst⟩ := List.mem_map.mp (contains_iff_mem.mp h)
      obtain ⟨hub, hopu⟩ := List.mem_filter.mp hu
      have := List.inj_on_of_nodup_map hnd hub he hfst
      subst this
      exact hop hopu

/-- C9: the view passed to the side to move is built on a value copy of the
board (deepcopy) from which every one of the opponent's pieces - lowercase
symbols when white is to move, uppercase otherwise - has been removed: the
view board is exactly the filter of the original keeping non-opponent
entries (every opponent entry gone, every other entry retained), while the
authoritative board component is returned unchanged. -/
theorem C9_view_construction (wtm : Bool) (board : Board)
    (hnd : (board.map Prod.fst).Nodup) :
    ((build_view wtm board).1 =
      board.filter
        (fun e => !((if wtm then black_pieces else white_pieces).contains e.2))) ∧
    (∀ e ∈ (build_view wtm board).1,
      (if wtm then black_pieces else white_pieces).contains e.2 = false ∧ e ∈ board) ∧
    (∀ e ∈ board, (if wtm then black_pieces else white_pieces).contains e.2 = false →
      e ∈ (build_view wtm board).1) ∧
    (build_view wtm board).2 = board := by
  have hmain : (build_view wtm board).1 =
      board.filter
        (fun e => !((if wtm then black_pieces else white_pieces).contains e.2)) := by
    show strip_loop (if wtm then black_pieces else white_pieces) board board = _
    rw [strip_loop_eq_filter]
    apply List.filter_congr
    intro e he
    rw [removal_squares_contains _ board hnd e he]
  refine ⟨hmain, ?_, ?_, rfl⟩
  · intro e he
    rw [hmain] at he
    have hmf := List.mem_filter.mp he
    refine ⟨?_, hmf.1⟩
    have := hmf.2
    cases h : (if wtm then black_pieces else white_pieces).contains e.2
    · rfl
    · rw [h] at this
      exact absurd this (by simp)
  · intro e he hop
    rw [hmain]
    exact List.mem_filter.mpr ⟨he, by rw [hop]; rfl⟩

/-- Witness for C9: on a two-piece board with white to move, the view
keeps white's king on square 0 and drops black's pawn on square 8, and the
authoritative board is unchanged. -/
theorem C9_view_construction_witness :
    (build_view true [(0, 'K'), (8, 'p')]).1 =
      [(0, 'K'), (8, 'p')].filter
        (fun e => !((if true then black_pieces else white_pieces).contains e.2)) :=
  (C9_view_construction true [(0, 'K'), (8, 'p')] (by decide)).1

/-- Witness for C3: after three completed games with `nb_game_in_file = 3`
the buffer is empty. -/
theorem C3_flush_discipline_witness :
    (run_orch 3 [[1], [2], [3]] : OrchState Nat).buffer = [] :=
  (C3_flush_discipline 3 [[1], [2], [3]]).2.2.2.1 (by decide)
